import Mathlib

/-!
Shallow embedding of the Nift-ai-backend indicator and signal-fusion core
(src/indicators.py and src/main.py).  Prices are modelled as exact
rationals.  A float NaN arising from a warm-up window, a `diff`, or an
undefined series entry is modelled as `none : Option ℚ`; IEEE comparisons
involving NaN are false, which `oltB` reproduces.  The session-window
branches of the prediction endpoint (main.py lines 23-41) depend on the
wall clock and are outside the computational core; the insufficient-data
gate (line 17) precedes them and is modelled in `predictF`.
-/

set_option maxHeartbeats 2000000

/-- One OHLCV bar.  Volume is never read by the core, so it is omitted;
`ts` models the bar's timestamp (used for the chart points and the
record's time field). -/
structure Bar where
  ts : ℤ
  op : ℚ
  high : ℚ
  low : ℚ
  close : ℚ
  deriving DecidableEq

/-- Strict float `<` with NaN modelled as `none`: any comparison
involving NaN is false, as in Python. -/
def oltB : Option ℚ → Option ℚ → Bool
  | some a, some b => decide (a < b)
  | _, _ => false

/-- The NaN fill of indicators.py lines 63-65: an undefined freshly
computed value is replaced by the previous bar's value. -/
def fillNa : Option ℚ → Option ℚ → Option ℚ
  | none, prev => prev
  | some v, _ => some v

/-- pandas `Series.rolling(window=w).mean()`: `none` until the window is
full, then the arithmetic mean of the last `w` entries. -/
def rollingMean (w : ℕ) (xs : List ℚ) : List (Option ℚ) :=
  (List.range xs.length).map fun i =>
    if w ≤ i + 1 then some ((((xs.drop (i + 1 - w)).take w).sum) / (w : ℚ)) else none

def trAux (prev : Bar) : List Bar → List ℚ
  | [] => []
  | b :: rest =>
      max (b.high - b.low) (max |b.high - prev.close| |b.low - prev.close|) :: trAux b rest

/-- True-range series (indicators.py lines 29-32, main.py lines 60-63):
`max(high-low, |high-prevClose|, |low-prevClose|)`.  On the first bar
`close.shift()` is NaN, the two shifted terms drop out of the row max,
and the true range reduces to `high - low`. -/
def trueRange : List Bar → List ℚ
  | [] => []
  | b :: rest => (b.high - b.low) :: trAux b rest

def diffAux (prev : ℚ) : List ℚ → List (Option ℚ)
  | [] => []
  | x :: xs => some (x - prev) :: diffAux x xs

/-- pandas `Series.diff()`: the first entry is NaN. -/
def diffs : List ℚ → List (Option ℚ)
  | [] => []
  | x :: xs => none :: diffAux x xs

/-- `delta.where(delta > 0, 0)`: entries failing the condition become 0;
the NaN first delta also fails the condition and becomes 0. -/
def gainRaw (close : List ℚ) : List ℚ :=
  (diffs close).map fun d =>
    match d with
    | some x => if 0 < x then x else 0
    | none => 0

/-- `-delta.where(delta < 0, 0)`: the absolute value of negative deltas,
0 elsewhere (including the NaN first delta). -/
def lossRaw (close : List ℚ) : List ℚ :=
  (diffs close).map fun d =>
    match d with
    | some x => if x < 0 then -x else 0
    | none => 0

/-- `gain.rolling(window=period).mean()` of indicators.py line 18. -/
def avgGain (close : List ℚ) (period : ℕ) : List (Option ℚ) :=
  rollingMean period (gainRaw close)

/-- `loss.rolling(window=period).mean()` of indicators.py line 19. -/
def avgLoss (close : List ℚ) (period : ℕ) : List (Option ℚ) :=
  rollingMean period (lossRaw close)

/-- indicators.py `calculate_rsi` (= main.py lines 53-57):
`rs = gain / loss.replace(0, inf)`, so a zero average loss is replaced
by +inf in the denominator and `rs = gain/inf = 0`; then
`rsi = 100 - 100/(1+rs)`. -/
def calculate_rsi (close : List ℚ) (period : ℕ) : List (Option ℚ) :=
  List.zipWith
    (fun g l =>
      match g, l with
      | some g0, some l0 => some (100 - 100 / (1 + (if l0 = 0 then 0 else g0 / l0)))
      | _, _ => none)
    (avgGain close period) (avgLoss close period)

def emaGo (a prev : ℚ) : List ℚ → List ℚ
  | [] => []
  | x :: xs => (a * x + (1 - a) * prev) :: emaGo a (a * x + (1 - a) * prev) xs

/-- `series.ewm(span=span, adjust=False).mean()` (indicators.py line 14,
main.py lines 48-49): the non-adjusted recursion `y0 = x0`,
`y_i = a*x_i + (1-a)*y_(i-1)` with `a = 2/(span+1)`. -/
def calculate_ema (series : List ℚ) (span : ℕ) : List ℚ :=
  match series with
  | [] => []
  | p :: ps => p :: emaGo (2 / ((span : ℚ) + 1)) p ps

/-- Basic Supertrend bands (indicators.py lines 36-38): `hl2 ± mult*ATR`
over the period-`P` rolling-mean ATR; `none` during the ATR warm-up. -/
def upperBand (bars : List Bar) (period : ℕ) (mult : ℚ) : List (Option ℚ) :=
  List.zipWith (fun b a => a.map fun v => (b.high + b.low) / 2 + mult * v)
    bars (rollingMean period (trueRange bars))

def lowerBand (bars : List Bar) (period : ℕ) (mult : ℚ) : List (Option ℚ) :=
  List.zipWith (fun b a => a.map fun v => (b.high + b.low) / 2 - mult * v)
    bars (rollingMean period (trueRange bars))

def ubAt (bars : List Bar) (period : ℕ) (mult : ℚ) (i : ℕ) : Option ℚ :=
  ((upperBand bars period mult)[i]?).join

def lbAt (bars : List Bar) (period : ℕ) (mult : ℚ) (i : ℕ) : Option ℚ :=
  ((lowerBand bars period mult)[i]?).join

def closeAt (bars : List Bar) (i : ℕ) : ℚ :=
  ((bars[i]?).map Bar.close).getD 0

/-- One iteration of the indicators.py Supertrend loop (lines 47-65),
including the final NaN fill: crossing above the previous upper band
resets the trend to the current lower band with direction 1, crossing
below the previous lower band resets to the current upper band with
direction -1, and otherwise trend and direction persist with the
one-sided ratchet; an undefined result is replaced by the previous
trend value. -/
def stStep (c : ℚ) (ubPrev lbPrev ubCur lbCur stPrev : Option ℚ) (dirPrev : ℤ) :
    Option ℚ × ℤ :=
  (fillNa
    (if oltB ubPrev (some c) then lbCur
     else if oltB (some c) lbPrev then ubCur
     else if dirPrev == 1 && oltB stPrev lbCur then lbCur
     else if dirPrev == -1 && oltB ubCur stPrev then ubCur
     else stPrev) stPrev,
   if oltB ubPrev (some c) then 1 else if oltB (some c) lbPrev then -1 else dirPrev)

/-- The indicators.py Supertrend state at bar `i`: seeded at bar 0 with
`trend = lowerBand[0]` and `direction = 1`, then one `stStep` per bar. -/
def stFrom (bars : List Bar) (period : ℕ) (mult : ℚ) : ℕ → Option ℚ × ℤ
  | 0 => (lbAt bars period mult 0, 1)
  | j + 1 =>
      stStep (closeAt bars (j + 1)) (ubAt bars period mult j) (lbAt bars period mult j)
        (ubAt bars period mult (j + 1)) (lbAt bars period mult (j + 1))
        (stFrom bars period mult j).1 (stFrom bars period mult j).2

/-- indicators.py `calculate_supertrend`: the (supertrend, direction, atr)
series triple.  (The source indexes `iloc[0]` and so assumes at least one
bar; on an empty frame the model returns empty series.) -/
def calculate_supertrend (bars : List Bar) (period : ℕ) (mult : ℚ) :
    List (Option ℚ) × List ℤ × List (Option ℚ) :=
  ((List.range bars.length).map fun i => (stFrom bars period mult i).1,
   (List.range bars.length).map fun i => (stFrom bars period mult i).2,
   rollingMean period (trueRange bars))

/-- One iteration of the main.py Supertrend loop (lines 80-93), which is
the indicators.py loop without the trailing NaN fill. -/
def stStepMain (c : ℚ) (ubPrev lbPrev ubCur lbCur stPrev : Option ℚ) (dirPrev : ℤ) :
    Option ℚ × ℤ :=
  (if oltB ubPrev (some c) then lbCur
   else if oltB (some c) lbPrev then ubCur
   else if dirPrev == 1 && oltB stPrev lbCur then lbCur
   else if dirPrev == -1 && oltB ubCur stPrev then ubCur
   else stPrev,
   if oltB ubPrev (some c) then 1 else if oltB (some c) lbPrev then -1 else dirPrev)

def stFromMain (bars : List Bar) (period : ℕ) (mult : ℚ) : ℕ → Option ℚ × ℤ
  | 0 => (lbAt bars period mult 0, 1)
  | j + 1 =>
      stStepMain (closeAt bars (j + 1)) (ubAt bars period mult j) (lbAt bars period mult j)
        (ubAt bars period mult (j + 1)) (lbAt bars period mult (j + 1))
        (stFromMain bars period mult j).1 (stFromMain bars period mult j).2

/-- The Supertrend (trend, direction) series pair as computed inline by
main.py lines 67-93 and by the chart endpoint lines 252-280. -/
def supertrendMain (bars : List Bar) (period : ℕ) (mult : ℚ) :
    List (Option ℚ) × List ℤ :=
  ((List.range bars.length).map fun i => (stFromMain bars period mult i).1,
   (List.range bars.length).map fun i => (stFromMain bars period mult i).2)

/-- Python's banker's rounding of a rational to an integer:
round half to even. -/
def rhe (q : ℚ) : ℤ :=
  if q - ⌊q⌋ < 1 / 2 then ⌊q⌋
  else if 1 / 2 < q - ⌊q⌋ then ⌊q⌋ + 1
  else if ⌊q⌋ % 2 = 0 then ⌊q⌋ else ⌊q⌋ + 1

/-- Python's `round(q, d)`. -/
def roundTo (d : ℕ) (q : ℚ) : ℚ :=
  ((rhe (q * (10 : ℚ) ^ d) : ℚ)) / (10 : ℚ) ^ d

inductive Signal
  | buy | sell | neutral
  deriving DecidableEq

/-- Signal classification of main.py lines 98-108: three-filter
confluence of EMA crossover, RSI thresholds 53/47 and the Supertrend
direction. -/
def classifySignal (fast slow rsi : ℚ) (d : ℤ) : Signal :=
  if slow < fast ∧ 53 < rsi ∧ d = 1 then .buy
  else if fast < slow ∧ rsi < 47 ∧ d = -1 then .sell
  else .neutral

/-- EMA confidence component (main.py line 111):
`min(|fast-slow| / atr * 20, 40)` when atr > 0, else 0. -/
def emaStrength (fast slow atr : ℚ) : ℚ :=
  if 0 < atr then min (|fast - slow| / atr * 20) 40 else 0

/-- RSI confidence component (main.py lines 112-116). -/
def rsiStrength (sig : Signal) (rsi : ℚ) : ℚ :=
  match sig with
  | .buy => max (min ((rsi - 50) * 1.5) 30) 0
  | .sell => max (min ((50 - rsi) * 1.5) 30) 0
  | .neutral => 0

/-- Supertrend confidence component (main.py line 117). -/
def stStrength (sig : Signal) (d : ℤ) : ℚ :=
  if (sig = .buy ∧ d = 1) ∨ (sig = .sell ∧ d = -1) then 30 else 0

/-- `confidence = round(ema_strength + rsi_strength + st_strength, 1)`
(main.py line 118), classified from the same inputs. -/
def confidenceOf (fast slow rsi atr : ℚ) (d : ℤ) : ℚ :=
  roundTo 1 (emaStrength fast slow atr
    + rsiStrength (classifySignal fast slow rsi d) rsi
    + stStrength (classifySignal fast slow rsi d) d)

/-- Target price (main.py lines 120-130): `reward = atr * 2.4`. -/
def targetOf (sig : Signal) (price atr : ℚ) : ℚ :=
  match sig with
  | .buy => price + atr * 2.4
  | .sell => price - atr * 2.4
  | .neutral => price

/-- Stop-loss price (main.py lines 120-130): `risk = atr * 1.2`. -/
def stopOf (sig : Signal) (price atr : ℚ) : ℚ :=
  match sig with
  | .buy => price - atr * 1.2
  | .sell => price + atr * 1.2
  | .neutral => price

/-- The possibly-NaN float stored in the record's supertrend field:
`float(supertrend.iloc[-1])` is NaN when the trend series never left its
warm-up carry-forward, and `round` keeps NaN. -/
inductive FVal
  | num (q : ℚ) | nan
  deriving DecidableEq

inductive StDir
  | bullish | bearish | na
  deriving DecidableEq

/-- The JSON record returned by the prediction endpoint on the full data
path (main.py lines 132-145). -/
structure SignalRecord where
  price : ℚ
  signal : Signal
  emaFastV : ℚ
  emaSlowV : ℚ
  rsiV : ℚ
  atrV : ℚ
  stV : FVal
  stDirV : StDir
  confidenceV : ℚ
  targetV : ℚ
  stopLossV : ℚ
  timeV : ℤ
  deriving DecidableEq

/-- `close.iloc[-1]` (main.py line 46). -/
def lastClose (bars : List Bar) : ℚ :=
  ((bars.map Bar.close).getLast?).getD 0

/-- `float(ema_fast.iloc[-1])` with span 9 (main.py lines 48, 50). -/
def emaFastLast (bars : List Bar) : ℚ :=
  ((calculate_ema (bars.map Bar.close) 9).getLast?).getD 0

/-- `float(ema_slow.iloc[-1])` with span 21 (main.py lines 49, 51). -/
def emaSlowLast (bars : List Bar) : ℚ :=
  ((calculate_ema (bars.map Bar.close) 21).getLast?).getD 0

/-- `float(rsi.iloc[-1]) if pd.notna(rsi.iloc[-1]) else 50.0`
(main.py line 58). -/
def rsiLast (bars : List Bar) : ℚ :=
  (((calculate_rsi (bars.map Bar.close) 14).getLast?).join).getD 50

/-- The 14-period ATR series of main.py lines 60-64. -/
def atrSeries (bars : List Bar) : List (Option ℚ) :=
  rollingMean 14 (trueRange bars)

/-- `float(atr.iloc[-1]) if pd.notna(atr.iloc[-1]) else 1.0`
(main.py line 65): the silent 1.0 fallback. -/
def atrLast (bars : List Bar) : ℚ :=
  (((atrSeries bars).getLast?).join).getD 1

/-- `supertrend.iloc[-1]` of the inline (10, 3.0) Supertrend
(main.py line 95); NaN is `none`. -/
def stLastVal (bars : List Bar) : Option ℚ :=
  (((supertrendMain bars 10 3).1.getLast?).join)

/-- `direction.iloc[-1]` (main.py line 96). -/
def stDirLast (bars : List Bar) : ℤ :=
  (((supertrendMain bars 10 3).2.getLast?)).getD 1

/-- The classified signal of main.py lines 103-108. -/
def sigOf (bars : List Bar) : Signal :=
  classifySignal (emaFastLast bars) (emaSlowLast bars) (rsiLast bars) (stDirLast bars)

/-- `"supertrend": round(st_last, 2)` where `st_last` may be NaN. -/
def stField (bars : List Bar) : FVal :=
  match stLastVal bars with
  | some q => .num (roundTo 2 q)
  | none => .nan

/-- `"BULLISH" if st_dir == 1 else "BEARISH" if st_dir == -1 else "N/A"`. -/
def stDirField (bars : List Bar) : StDir :=
  if stDirLast bars = 1 then .bullish else if stDirLast bars = -1 then .bearish else .na

/-- `str(last_time)` modelled as the last bar's timestamp. -/
def lastTs (bars : List Bar) : ℤ :=
  ((bars.map Bar.ts).getLast?).getD 0

/-- The indicator-and-fusion pipeline of main.py lines 43-145: the full
record built from one bar table. -/
def predictCore (bars : List Bar) : SignalRecord :=
  { price := roundTo 2 (lastClose bars)
  , signal := sigOf bars
  , emaFastV := roundTo 2 (emaFastLast bars)
  , emaSlowV := roundTo 2 (emaSlowLast bars)
  , rsiV := roundTo 1 (rsiLast bars)
  , atrV := roundTo 2 (atrLast bars)
  , stV := stField bars
  , stDirV := stDirField bars
  , confidenceV := confidenceOf (emaFastLast bars) (emaSlowLast bars) (rsiLast bars)
      (atrLast bars) (stDirLast bars)
  , targetV := roundTo 2 (targetOf (sigOf bars) (lastClose bars) (atrLast bars))
  , stopLossV := roundTo 2 (stopOf (sigOf bars) (lastClose bars) (atrLast bars))
  , timeV := lastTs bars }

/-- Responses of the prediction endpoint that depend on the data alone.
`insufficientData` is the dict of main.py line 18, which carries only the
keys error and signal (the latter set to the category CLOSED) and in
particular no price key. -/
inductive PredictResponse
  | insufficientData
  | record (r : SignalRecord)
  deriving DecidableEq

/-- The response categories visible in the signal field. -/
inductive RespCat
  | closed | buy | sell | neutral
  deriving DecidableEq

/-- The prediction endpoint on its data path: `if data.empty or
len(data) < 30` it returns the insufficient-data dict (main.py
lines 17-18), otherwise the full record.  The wall-clock session
branches in between are out of scope and sit after this gate. -/
def predictF (bars : List Bar) : PredictResponse :=
  if bars.length < 30 then .insufficientData else .record (predictCore bars)

/-- The price key of a prediction response, when present. -/
def respPrice : PredictResponse → Option ℚ
  | .insufficientData => none
  | .record r => some r.price

/-- The signal field of a prediction response. -/
def respSignalCat : PredictResponse → RespCat
  | .insufficientData => .closed
  | .record r =>
      match r.signal with
      | .buy => .buy
      | .sell => .sell
      | .neutral => .neutral

/-- Responses of the chart endpoint (main.py lines 232-313).  The
insufficient-data dict (line 240) carries only an error key: no signal
category and no price.  On the data path the endpoint returns the
candles plus the EMA and Supertrend point series with undefined points
filtered out (lines 282-310). -/
inductive ChartResponse
  | noData
  | chartData (candles : List (ℤ × ℚ × ℚ × ℚ × ℚ))
      (emaFastPts emaSlowPts stPts : List (ℤ × ℚ))
  deriving DecidableEq

/-- The chart endpoint: `if data.empty or len(data) < 5` it returns the
error-only dict; otherwise candles and indicator point series.  The EMA
values of finite closes are always finite, so their None filter keeps
every point; the Supertrend series can be NaN and is filtered. -/
def chartF (bars : List Bar) : ChartResponse :=
  if bars.length < 5 then .noData
  else
    .chartData
      (bars.map fun b => (b.ts, b.op, b.high, b.low, b.close))
      (List.zipWith (fun b v => (b.ts, v)) bars (calculate_ema (bars.map Bar.close) 9))
      (List.zipWith (fun b v => (b.ts, v)) bars (calculate_ema (bars.map Bar.close) 21))
      ((List.zipWith (fun b v => Option.map (fun q => (b.ts, q)) v)
          bars (supertrendMain bars 10 3).1).filterMap id)

/-- A Python value reaching indicators.py `clean_val`: None, a float
(finite, NaN or infinite), or a non-float value such as an int. -/
inductive FloatV
  | finite (q : ℚ) | nan | inf | ninf
  deriving DecidableEq

inductive PyVal
  | pnone
  | pfloat (f : FloatV)
  | pint (n : ℤ)
  deriving DecidableEq

/-- Whether the value is a float that is NaN or infinite. -/
def isNonFinite : PyVal → Bool
  | .pfloat .nan => true
  | .pfloat .inf => true
  | .pfloat .ninf => true
  | _ => false

/-- indicators.py `clean_val` (lines 4-11): None stays None, a NaN or
infinite float becomes None, everything else passes through unchanged. -/
def clean_val : PyVal → PyVal
  | .pnone => .pnone
  | .pfloat .nan => .pnone
  | .pfloat .inf => .pnone
  | .pfloat .ninf => .pnone
  | v => v

/-- 12 bars: ten flat bars, then two upward bars each of which closes
above the previous bar's upper band while the current lower band falls.
Used to exercise the Supertrend ratchet claims at period 10. -/
def cbars : List Bar :=
  List.replicate 10 ⟨0, 100, 100, 100, 100⟩ ++
    [⟨0, 101, 101, 101, 101⟩, ⟨0, 102, 110, 94, 102⟩]

/-- 30 identical flat bars: passes the 30-bar gate, keeps every band
equal to the close, and so leaves the Supertrend series NaN throughout. -/
def flatBars30 : List Bar :=
  List.replicate 30 ⟨7, 100, 100, 100, 100⟩

/-- 3 bars with defined closes: below the 30-bar gate. -/
def bars3 : List Bar :=
  [⟨0, 1, 1, 1, 1⟩, ⟨1, 2, 2, 2, 2⟩, ⟨2, 3, 3, 3, 3⟩]

/-- 2 bars: too short for any 14-period window, so the last ATR entry is
undefined. -/
def bars2 : List Bar :=
  [⟨0, 5, 6, 4, 5⟩, ⟨1, 5, 7, 5, 6⟩]

/-- The per-bar recurrence the Supertrend series of
`calculate_supertrend` satisfies at step `j -> j+1`: the direction is
reset by a crossing of the previous bar's band and otherwise persists,
and the trend value is the crossing band, or the persisted value with
the one-sided ratchet, with an undefined result replaced by the
previous bar's trend. -/
def StRec (bars : List Bar) (period : ℕ) (mult : ℚ) (j : ℕ) : Prop :=
  (calculate_supertrend bars period mult).2.1.getD (j + 1) 0 =
    (if oltB (ubAt bars period mult j) (some (closeAt bars (j + 1))) then 1
     else if oltB (some (closeAt bars (j + 1))) (lbAt bars period mult j) then -1
     else (calculate_supertrend bars period mult).2.1.getD j 0) ∧
  (calculate_supertrend bars period mult).1.getD (j + 1) none =
    fillNa
      (if oltB (ubAt bars period mult j) (some (closeAt bars (j + 1))) then
        lbAt bars period mult (j + 1)
       else if oltB (some (closeAt bars (j + 1))) (lbAt bars period mult j) then
        ubAt bars period mult (j + 1)
       else if (calculate_supertrend bars period mult).2.1.getD j 0 == 1
           && oltB ((calculate_supertrend bars period mult).1.getD j none)
                (lbAt bars period mult (j + 1)) then
        lbAt bars period mult (j + 1)
       else if (calculate_supertrend bars period mult).2.1.getD j 0 == -1
           && oltB (ubAt bars period mult (j + 1))
                ((calculate_supertrend bars period mult).1.getD j none) then
        ubAt bars period mult (j + 1)
       else (calculate_supertrend bars period mult).1.getD j none)
      ((calculate_supertrend bars period mult).1.getD j none)

/-- The Supertrend direction changes at bar `j+1` only when the close
crosses the opposite band computed at bar `j`. -/
def DirChangeOnlyOnCross (bars : List Bar) (period : ℕ) (mult : ℚ) (j : ℕ) : Prop :=
  (calculate_supertrend bars period mult).2.1.getD (j + 1) 0 ≠
      (calculate_supertrend bars period mult).2.1.getD j 0 →
    ((calculate_supertrend bars period mult).2.1.getD (j + 1) 0 = 1 ∧
       oltB (ubAt bars period mult j) (some (closeAt bars (j + 1))) = true) ∨
    ((calculate_supertrend bars period mult).2.1.getD (j + 1) 0 = -1 ∧
       oltB (some (closeAt bars (j + 1))) (lbAt bars period mult j) = true)

/-- On a step where neither band of bar `j` is crossed, the direction
persists and the defined trend values move with the ratchet only:
non-decreasing while the direction is 1, non-increasing while it is -1. -/
def PersistMonotone (bars : List Bar) (period : ℕ) (mult : ℚ) (j : ℕ) : Prop :=
  oltB (ubAt bars period mult j) (some (closeAt bars (j + 1))) = false →
  oltB (some (closeAt bars (j + 1))) (lbAt bars period mult j) = false →
  (calculate_supertrend bars period mult).2.1.getD (j + 1) 0 =
      (calculate_supertrend bars period mult).2.1.getD j 0 ∧
  ((calculate_supertrend bars period mult).2.1.getD j 0 = 1 →
    ∀ a b : ℚ, (calculate_supertrend bars period mult).1.getD j none = some a →
      (calculate_supertrend bars period mult).1.getD (j + 1) none = some b → a ≤ b) ∧
  ((calculate_supertrend bars period mult).2.1.getD j 0 = -1 →
    ∀ a b : ℚ, (calculate_supertrend bars period mult).1.getD j none = some a →
      (calculate_supertrend bars period mult).1.getD (j + 1) none = some b → b ≤ a)

/-- Indexing the mapped range list used to materialise the Supertrend
series. -/
theorem getD_map_range {α : Type} (f : ℕ → α) (n j : ℕ) (d : α) (h : j < n) :
    ((List.range n).map f).getD j d = f j := by
  rw [List.getD_eq_getElem?_getD, List.getElem?_map, List.getElem?_range h]
  rfl

theorem oltB_eq_true_iff {o1 o2 : Option ℚ} :
    oltB o1 o2 = true ↔ ∃ a b : ℚ, o1 = some a ∧ o2 = some b ∧ a < b := by
  cases o1 <;> cases o2 <;> simp [oltB]

theorem abs_val (a : ℚ) : |a| = if 0 ≤ a then a else -a := by
  rcases le_or_lt 0 a with h | h
  · rw [abs_of_nonneg h, if_pos h]
  · rw [abs_of_neg h, if_neg (not_le.mpr h)]

/-- Unfolding of one indicators.py Supertrend iteration. -/
theorem stFrom_succ (bars : List Bar) (p : ℕ) (m : ℚ) (j : ℕ) :
    stFrom bars p m (j + 1) =
      stStep (closeAt bars (j + 1)) (ubAt bars p m j) (lbAt bars p m j)
        (ubAt bars p m (j + 1)) (lbAt bars p m (j + 1))
        (stFrom bars p m j).1 (stFrom bars p m j).2 := rfl

/-- Unfolding of one main.py Supertrend iteration. -/
theorem stFromMain_succ (bars : List Bar) (p : ℕ) (m : ℚ) (j : ℕ) :
    stFromMain bars p m (j + 1) =
      stStepMain (closeAt bars (j + 1)) (ubAt bars p m j) (lbAt bars p m j)
        (ubAt bars p m (j + 1)) (lbAt bars p m (j + 1))
        (stFromMain bars p m j).1 (stFromMain bars p m j).2 := rfl

/-- During the band warm-up (both previous bands NaN) and with a NaN
trend, the indicators.py iteration keeps a NaN trend and the previous
direction. -/
theorem stStep_warm (c : ℚ) (ubC lbC : Option ℚ) (dP : ℤ) :
    stStep c none none ubC lbC none dP = (none, dP) := by
  cases ubC <;> cases lbC <;> simp [stStep, oltB, fillNa]

/-- Same statement for the main.py iteration. -/
theorem stStepMain_warm (c : ℚ) (ubC lbC : Option ℚ) (dP : ℤ) :
    stStepMain c none none ubC lbC none dP = (none, dP) := by
  cases ubC <;> cases lbC <;> simp [stStepMain, oltB]

/-- C1 evaluation: on the strictly rising series [1, 2, 3] with period 2
the average loss is defined and exactly zero from index 1 on, and the
RSI the code computes there is 0, not 100: `loss.replace(0, inf)` makes
the relative strength gain/inf = 0, so `100 - 100/(1+0) = 0`. -/
theorem rsi_zero_loss_eval :
    avgGain [1, 2, 3] 2 = [none, some (1 / 2), some 1] ∧
    avgLoss [1, 2, 3] 2 = [none, some 0, some 0] ∧
    calculate_rsi [1, 2, 3] 2 = [none, some 0, some 0] := by
  norm_num [avgGain, avgLoss, calculate_rsi, rollingMean, gainRaw, lossRaw,
    diffs, diffAux, List.range_succ]

/-- C2 counterexample: with fast = 100, slow = 60, rsi = 50, atr = 1 and
Supertrend direction 1 the classified signal is NEUTRAL, yet the
confidence is 40 (the EMA component is added regardless of the signal),
refuting that NEUTRAL implies confidence 0. -/
theorem confidence_neutral_counterexample :
    classifySignal 100 60 50 1 = Signal.neutral ∧ confidenceOf 100 60 50 1 1 = 40 := by
  have hc : classifySignal 100 60 50 1 = Signal.neutral := by
    norm_num [classifySignal]
  have hema : emaStrength 100 60 1 = 40 := by
    norm_num [emaStrength, abs_val, min_def]
  have hst : stStrength Signal.neutral 1 = 0 := by
    simp [stStrength]
  refine ⟨hc, ?_⟩
  rw [confidenceOf, hc, hema, hst]
  norm_num [rsiStrength, roundTo, rhe]

/-- C7 counterexample: on a 3-bar table the prediction endpoint returns
the insufficient-data dict, which has no price key even though the last
close (3) is available, refuting that the price is still surfaced. -/
theorem insufficient_no_price_counterexample :
    predictF bars3 = PredictResponse.insufficientData ∧
    respPrice (predictF bars3) = none ∧
    (bars3.map Bar.close).getLast? = some 3 := by
  have hp : predictF bars3 = PredictResponse.insufficientData := by
    simp [predictF, bars3]
  exact ⟨hp, by rw [hp]; rfl, by simp [bars3]⟩

/-- True ranges of `cbars`: flat until bar 9, then 1 and 16. -/
theorem cbars_tr : trueRange cbars = [0, 0, 0, 0, 0, 0, 0, 0, 0, 0, 1, 16] := by
  norm_num [cbars, trueRange, trAux, List.replicate, max_def, abs_val]

/-- Upper band of `cbars` at (10, 3). -/
theorem cbars_ub : upperBand cbars 10 3 =
    [none, none, none, none, none, none, none, none, none,
     some 100, some (1013 / 10), some (1071 / 10)] := by
  unfold upperBand
  rw [cbars_tr]
  norm_num [rollingMean, List.range_succ, cbars, List.replicate]

/-- Lower band of `cbars` at (10, 3). -/
theorem cbars_lb : lowerBand cbars 10 3 =
    [none, none, none, none, none, none, none, none, none,
     some 100, some (1007 / 10), some (969 / 10)] := by
  unfold lowerBand
  rw [cbars_tr]
  norm_num [rollingMean, List.range_succ, cbars, List.replicate]

/-- C4 counterexample: on `cbars` the Supertrend direction is 1 at both
bar 10 and bar 11 (part of a single maximal UP run), yet the trend falls
from 1007/10 to 969/10, because bar 11 re-crosses the upper band and the
trend is re-anchored to the lower current band: the trend values on a
maximal UP run are not monotonically non-decreasing. -/
theorem supertrend_up_run_decrease_counterexample :
    (calculate_supertrend cbars 10 3).2.1.getD 10 0 = 1 ∧
    (calculate_supertrend cbars 10 3).2.1.getD 11 0 = 1 ∧
    (calculate_supertrend cbars 10 3).1.getD 10 none = some (1007 / 10) ∧
    (calculate_supertrend cbars 10 3).1.getD 11 none = some (969 / 10) ∧
    (969 : ℚ) / 10 < 1007 / 10 := by
  have hub0 : ubAt cbars 10 3 0 = none := by simp [ubAt, cbars_ub]
  have hub1 : ubAt cbars 10 3 1 = none := by simp [ubAt, cbars_ub]
  have hub2 : ubAt cbars 10 3 2 = none := by simp [ubAt, cbars_ub]
  have hub3 : ubAt cbars 10 3 3 = none := by simp [ubAt, cbars_ub]
  have hub4 : ubAt cbars 10 3 4 = none := by simp [ubAt, cbars_ub]
  have hub5 : ubAt cbars 10 3 5 = none := by simp [ubAt, cbars_ub]
  have hub6 : ubAt cbars 10 3 6 = none := by simp [ubAt, cbars_ub]
  have hub7 : ubAt cbars 10 3 7 = none := by simp [ubAt, cbars_ub]
  have hub8 : ubAt cbars 10 3 8 = none := by simp [ubAt, cbars_ub]
  have hub9 : ubAt cbars 10 3 9 = some 100 := by simp [ubAt, cbars_ub]
  have hub10 : ubAt cbars 10 3 10 = some (1013 / 10) := by simp [ubAt, cbars_ub]
  have hlb0 : lbAt cbars 10 3 0 = none := by simp [lbAt, cbars_lb]
  have hlb1 : lbAt cbars 10 3 1 = none := by simp [lbAt, cbars_lb]
  have hlb2 : lbAt cbars 10 3 2 = none := by simp [lbAt, cbars_lb]
  have hlb3 : lbAt cbars 10 3 3 = none := by simp [lbAt, cbars_lb]
  have hlb4 : lbAt cbars 10 3 4 = none := by simp [lbAt, cbars_lb]
  have hlb5 : lbAt cbars 10 3 5 = none := by simp [lbAt, cbars_lb]
  have hlb6 : lbAt cbars 10 3 6 = none := by simp [lbAt, cbars_lb]
  have hlb7 : lbAt cbars 10 3 7 = none := by simp [lbAt, cbars_lb]
  have hlb8 : lbAt cbars 10 3 8 = none := by simp [lbAt, cbars_lb]
  have hlb9 : lbAt cbars 10 3 9 = some 100 := by simp [lbAt, cbars_lb]
  have hlb10 : lbAt cbars 10 3 10 = some (1007 / 10) := by simp [lbAt, cbars_lb]
  have hlb11 : lbAt cbars 10 3 11 = some (969 / 10) := by simp [lbAt, cbars_lb]
  have hc10 : closeAt cbars 10 = 101 := by simp [closeAt, cbars, List.replicate]
  have hc11 : closeAt cbars 11 = 102 := by simp [closeAt, cbars, List.replicate]
  have s0 : stFrom cbars 10 3 0 = (none, 1) := by
    rw [show stFrom cbars 10 3 0 = (lbAt cbars 10 3 0, 1) from rfl, hlb0]
  have s1 : stFrom cbars 10 3 1 = (none, 1) := by
    rw [show stFrom cbars 10 3 1 = stStep (closeAt cbars 1) (ubAt cbars 10 3 0)
        (lbAt cbars 10 3 0) (ubAt cbars 10 3 1) (lbAt cbars 10 3 1)
        (stFrom cbars 10 3 0).1 (stFrom cbars 10 3 0).2 from rfl, s0, hub0, hlb0]
    exact stStep_warm _ _ _ _
  have s2 : stFrom cbars 10 3 2 = (none, 1) := by
    rw [show stFrom cbars 10 3 2 = stStep (closeAt cbars 2) (ubAt cbars 10 3 1)
        (lbAt cbars 10 3 1) (ubAt cbars 10 3 2) (lbAt cbars 10 3 2)
        (stFrom cbars 10 3 1).1 (stFrom cbars 10 3 1).2 from rfl, s1, hub1, hlb1]
    exact stStep_warm _ _ _ _
  have s3 : stFrom cbars 10 3 3 = (none, 1) := by
    rw [show stFrom cbars 10 3 3 = stStep (closeAt cbars 3) (ubAt cbars 10 3 2)
        (lbAt cbars 10 3 2) (ubAt cbars 10 3 3) (lbAt cbars 10 3 3)
        (stFrom cbars 10 3 2).1 (stFrom cbars 10 3 2).2 from rfl, s2, hub2, hlb2]
    exact stStep_warm _ _ _ _
  have s4 : stFrom cbars 10 3 4 = (none, 1) := by
    rw [show stFrom cbars 10 3 4 = stStep (closeAt cbars 4) (ubAt cbars 10 3 3)
        (lbAt cbars 10 3 3) (ubAt cbars 10 3 4) (lbAt cbars 10 3 4)
        (stFrom cbars 10 3 3).1 (stFrom cbars 10 3 3).2 from rfl, s3, hub3, hlb3]
    exact stStep_warm _ _ _ _
  have s5 : stFrom cbars 10 3 5 = (none, 1) := by
    rw [show stFrom cbars 10 3 5 = stStep (closeAt cbars 5) (ubAt cbars 10 3 4)
        (lbAt cbars 10 3 4) (ubAt cbars 10 3 5) (lbAt cbars 10 3 5)
        (stFrom cbars 10 3 4).1 (stFrom cbars 10 3 4).2 from rfl, s4, hub4, hlb4]
    exact stStep_warm _ _ _ _
  have s6 : stFrom cbars 10 3 6 = (none, 1) := by
    rw [show stFrom cbars 10 3 6 = stStep (closeAt cbars 6) (ubAt cbars 10 3 5)
        (lbAt cbars 10 3 5) (ubAt cbars 10 3 6) (lbAt cbars 10 3 6)
        (stFrom cbars 10 3 5).1 (stFrom cbars 10 3 5).2 from rfl, s5, hub5, hlb5]
    exact stStep_warm _ _ _ _
  have s7 : stFrom cbars 10 3 7 = (none, 1) := by
    rw [show stFrom cbars 10 3 7 = stStep (closeAt cbars 7) (ubAt cbars 10 3 6)
        (lbAt cbars 10 3 6) (ubAt cbars 10 3 7) (lbAt cbars 10 3 7)
        (stFrom cbars 10 3 6).1 (stFrom cbars 10 3 6).2 from rfl, s6, hub6, hlb6]
    exact stStep_warm _ _ _ _
  have s8 : stFrom cbars 10 3 8 = (none, 1) := by
    rw [show stFrom cbars 10 3 8 = stStep (closeAt cbars 8) (ubAt cbars 10 3 7)
        (lbAt cbars 10 3 7) (ubAt cbars 10 3 8) (lbAt cbars 10 3 8)
        (stFrom cbars 10 3 7).1 (stFrom cbars 10 3 7).2 from rfl, s7, hub7, hlb7]
    exact stStep_warm _ _ _ _
  have s9 : stFrom cbars 10 3 9 = (none, 1) := by
    rw [show stFrom cbars 10 3 9 = stStep (closeAt cbars 9) (ubAt cbars 10 3 8)
        (lbAt cbars 10 3 8) (ubAt cbars 10 3 9) (lbAt cbars 10 3 9)
        (stFrom cbars 10 3 8).1 (stFrom cbars 10 3 8).2 from rfl, s8, hub8, hlb8]
    exact stStep_warm _ _ _ _
  have s10 : stFrom cbars 10 3 10 = (some (1007 / 10), 1) := by
    rw [show stFrom cbars 10 3 10 = stStep (closeAt cbars 10) (ubAt cbars 10 3 9)
        (lbAt cbars 10 3 9) (ubAt cbars 10 3 10) (lbAt cbars 10 3 10)
        (stFrom cbars 10 3 9).1 (stFrom cbars 10 3 9).2 from rfl,
      s9, hub9, hlb9, hub10, hlb10, hc10]
    norm_num [stStep, oltB, fillNa]
  have s11 : stFrom cbars 10 3 11 = (some (969 / 10), 1) := by
    rw [show stFrom cbars 10 3 11 = stStep (closeAt cbars 11) (ubAt cbars 10 3 10)
        (lbAt cbars 10 3 10) (ubAt cbars 10 3 11) (lbAt cbars 10 3 11)
        (stFrom cbars 10 3 10).1 (stFrom cbars 10 3 10).2 from rfl,
      s10, hub10, hlb10, hlb11, hc11]
    norm_num [stStep, oltB, fillNa]
  have h10 : (10 : ℕ) < cbars.length := by simp [cbars]
  have h11 : (11 : ℕ) < cbars.length := by simp [cbars]
  refine ⟨?_, ?_, ?_, ?_, by norm_num⟩
  · show ((List.range cbars.length).map fun i => (stFrom cbars 10 3 i).2).getD 10 0 = 1
    rw [getD_map_range _ _ _ _ h10, s10]
  · show ((List.range cbars.length).map fun i => (stFrom cbars 10 3 i).2).getD 11 0 = 1
    rw [getD_map_range _ _ _ _ h11, s11]
  · show ((List.range cbars.length).map fun i => (stFrom cbars 10 3 i).1).getD 10 none =
      some (1007 / 10)
    rw [getD_map_range _ _ _ _ h10, s10]
  · show ((List.range cbars.length).map fun i => (stFrom cbars 10 3 i).1).getD 11 none =
      some (969 / 10)
    rw [getD_map_range _ _ _ _ h11, s11]

theorem zipWith_replicate_left {α β γ : Type} (f : α → β → γ) (a : α) :
    ∀ (l : List β) (n : ℕ),
      List.zipWith f (List.replicate n a) l = (l.take n).map (f a) := by
  intro l
  induction l with
  | nil => intro n; cases n <;> simp
  | cons x xs ih =>
      intro n
      cases n with
      | zero => simp
      | succ k => simp [List.replicate_succ, ih k]

theorem flat_trAux (n : ℕ) :
    trAux ⟨7, 100, 100, 100, 100⟩ (List.replicate n ⟨7, 100, 100, 100, 100⟩) =
      List.replicate n 0 := by
  induction n with
  | zero => rfl
  | succ k ih =>
      rw [List.replicate_succ, List.replicate_succ]
      show (max ((100 : ℚ) - 100) (max |(100 : ℚ) - 100| |(100 : ℚ) - 100|)) ::
        trAux ⟨7, 100, 100, 100, 100⟩ (List.replicate k ⟨7, 100, 100, 100, 100⟩) =
        (0 : ℚ) :: List.replicate k 0
      rw [ih]
      norm_num

theorem flat_tr : trueRange flatBars30 = List.replicate 30 0 := by
  rw [flatBars30, List.replicate_succ]
  show ((100 : ℚ) - 100) ::
    trAux ⟨7, 100, 100, 100, 100⟩ (List.replicate 29 ⟨7, 100, 100, 100, 100⟩) =
    List.replicate 30 (0 : ℚ)
  rw [flat_trAux 29]
  rw [show List.replicate 30 (0 : ℚ) = 0 :: List.replicate 29 0 from rfl]
  norm_num

theorem flat_roll : rollingMean 10 (List.replicate 30 (0 : ℚ)) =
    (List.range 30).map fun i => if 10 ≤ i + 1 then some 0 else none := by
  unfold rollingMean
  rw [List.length_replicate]
  refine List.map_congr_left ?_
  intro i _
  by_cases h : 10 ≤ i + 1
  · rw [if_pos h, if_pos h, List.drop_replicate, List.take_replicate]
    simp
  · rw [if_neg h, if_neg h]

theorem flat_ubList : upperBand flatBars30 10 3 =
    (List.range 30).map fun i => if 10 ≤ i + 1 then some 100 else none := by
  unfold upperBand
  rw [flat_tr, flat_roll]
  rw [show flatBars30 = List.replicate 30 (⟨7, 100, 100, 100, 100⟩ : Bar) from rfl]
  rw [zipWith_replicate_left]
  rw [List.take_of_length_le (by simp)]
  rw [List.map_map]
  refine List.map_congr_left ?_
  intro i _
  by_cases h : 10 ≤ i + 1
  · simp only [Function.comp, if_pos h, Option.map_some]
    norm_num
  · simp [Function.comp, if_neg h]

theorem flat_lbList : lowerBand flatBars30 10 3 =
    (List.range 30).map fun i => if 10 ≤ i + 1 then some 100 else none := by
  unfold lowerBand
  rw [flat_tr, flat_roll]
  rw [show flatBars30 = List.replicate 30 (⟨7, 100, 100, 100, 100⟩ : Bar) from rfl]
  rw [zipWith_replicate_left]
  rw [List.take_of_length_le (by simp)]
  rw [List.map_map]
  refine List.map_congr_left ?_
  intro i _
  by_cases h : 10 ≤ i + 1
  · simp only [Function.comp, if_pos h, Option.map_some]
    norm_num
  · simp [Function.comp, if_neg h]

theorem flat_ubAt (j : ℕ) :
    ubAt flatBars30 10 3 j = if j < 30 ∧ 10 ≤ j + 1 then some 100 else none := by
  rw [ubAt, flat_ubList, List.getElem?_map]
  by_cases hj : j < 30
  · rw [List.getElem?_range hj]
    by_cases h : 10 ≤ j + 1
    · rw [if_pos ⟨hj, h⟩]
      simp
      omega
    · rw [if_neg (by tauto)]
      simp
      omega
  · rw [List.getElem?_eq_none (by simpa using Nat.le_of_not_lt hj)]
    rw [if_neg (by tauto)]
    rfl

theorem flat_lbAt (j : ℕ) :
    lbAt flatBars30 10 3 j = if j < 30 ∧ 10 ≤ j + 1 then some 100 else none := by
  rw [lbAt, flat_lbList, List.getElem?_map]
  by_cases hj : j < 30
  · rw [List.getElem?_range hj]
    by_cases h : 10 ≤ j + 1
    · rw [if_pos ⟨hj, h⟩]
      simp
      omega
    · rw [if_neg (by tauto)]
      simp
      omega
  · rw [List.getElem?_eq_none (by simpa using Nat.le_of_not_lt hj)]
    rw [if_neg (by tauto)]
    rfl

theorem flat_close (j : ℕ) (h : j < 30) : closeAt flatBars30 j = 100 := by
  rw [closeAt, show flatBars30 = List.replicate 30 (⟨7, 100, 100, 100, 100⟩ : Bar) from rfl]
  rw [List.getElem?_replicate]
  rw [if_pos h]
  rfl

/-- A persist step of the main.py loop with both previous bands equal to
values the close does not cross and a NaN trend keeps the NaN trend and
the direction. -/
theorem stStepMain_flat (c u v : ℚ) (hu : ¬ u < c) (hl : ¬ c < v)
    (ubC lbC : Option ℚ) (dP : ℤ) :
    stStepMain c (some u) (some v) ubC lbC none dP = (none, dP) := by
  cases ubC <;> cases lbC <;> simp [stStepMain, oltB, hu, hl]

theorem flat_stM : ∀ i, i ≤ 29 → stFromMain flatBars30 10 3 i = (none, 1) := by
  intro i
  induction i with
  | zero =>
      intro _
      rw [show stFromMain flatBars30 10 3 0 = (lbAt flatBars30 10 3 0, 1) from rfl]
      rw [flat_lbAt, if_neg (by omega)]
  | succ k ih =>
      intro hk
      have hk29 : k ≤ 29 := Nat.le_of_succ_le hk
      rw [stFromMain_succ, ih hk29, flat_close (k + 1) (by omega)]
      by_cases h9 : 10 ≤ k + 1
      · have hub : ubAt flatBars30 10 3 k = some 100 := by
          rw [flat_ubAt k, if_pos (show k < 30 ∧ 10 ≤ k + 1 from ⟨by omega, h9⟩)]
        have hlb : lbAt flatBars30 10 3 k = some 100 := by
          rw [flat_lbAt k, if_pos (show k < 30 ∧ 10 ≤ k + 1 from ⟨by omega, h9⟩)]
        rw [hub, hlb]
        exact stStepMain_flat 100 100 100 (by norm_num) (by norm_num) _ _ _
      · have hub : ubAt flatBars30 10 3 k = none := by
          rw [flat_ubAt k, if_neg (by tauto)]
        have hlb : lbAt flatBars30 10 3 k = none := by
          rw [flat_lbAt k, if_neg (by tauto)]
        rw [hub, hlb]
        exact stStepMain_warm _ _ _ _

theorem flat_stLast : stLastVal flatBars30 = none := by
  rw [stLastVal]
  show (((List.range flatBars30.length).map fun i =>
    (stFromMain flatBars30 10 3 i).1).getLast?).join = none
  rw [List.getLast?_eq_getElem?]
  simp only [List.length_map, List.length_range]
  rw [show flatBars30.length = 30 from by simp [flatBars30]]
  rw [show (30 : ℕ) - 1 = 29 from rfl]
  rw [List.getElem?_map]
  rw [List.getElem?_range (by norm_num : (29 : ℕ) < 30)]
  simp [flat_stM 29 (by norm_num)]

/-- C5 counterexample: 30 flat bars pass the 30-bar gate, yet the
supertrend field of the returned record is the float NaN: `clean_val` is
never applied on the prediction path, so a non-finite float crosses the
system boundary in the record a downstream consumer observes. -/
theorem predict_nan_crosses_boundary :
    predictF flatBars30 = PredictResponse.record (predictCore flatBars30) ∧
    (predictCore flatBars30).stV = FVal.nan := by
  constructor
  · rw [predictF, if_neg (by simp [flatBars30])]
  · show stField flatBars30 = FVal.nan
    rw [stField, flat_stLast]

theorem rhe_nonneg {q : ℚ} (h : 0 ≤ q) : 0 ≤ rhe q := by
  have hf : (0 : ℤ) ≤ ⌊q⌋ := Int.floor_nonneg.mpr h
  unfold rhe
  split_ifs <;> omega

theorem rhe_le {q : ℚ} {B : ℤ} (h : q ≤ (B : ℚ)) : rhe q ≤ B := by
  have hfB : ⌊q⌋ ≤ B := by
    have h2 := Int.floor_le_floor h
    rwa [Int.floor_intCast] at h2
  have hlow : (⌊q⌋ : ℚ) ≤ q := Int.floor_le q
  unfold rhe
  split_ifs with h1 h2 h3
  · exact hfB
  · rcases lt_or_eq_of_le hfB with hlt | heq
    · omega
    · exfalso
      have hq : (B : ℚ) + 1 / 2 < q := by
        rw [← heq]
        linarith
      linarith
  · exact hfB
  · have hq : q - ⌊q⌋ = 1 / 2 := le_antisymm (le_of_not_lt h2) (le_of_not_lt h1)
    rcases lt_or_eq_of_le hfB with hlt | heq
    · omega
    · exfalso
      have hq2 : q = (B : ℚ) + 1 / 2 := by
        rw [← heq]
        linarith
      linarith

theorem roundTo_nonneg {d : ℕ} {q : ℚ} (h : 0 ≤ q) : 0 ≤ roundTo d q := by
  unfold roundTo
  apply div_nonneg _ (by positivity)
  have h2 := rhe_nonneg (q := q * 10 ^ d) (by positivity)
  exact_mod_cast h2

theorem roundTo_le {d : ℕ} {q : ℚ} {B : ℤ} (h : q ≤ (B : ℚ)) : roundTo d q ≤ (B : ℚ) := by
  unfold roundTo
  rw [div_le_iff₀ (by positivity : (0 : ℚ) < 10 ^ d)]
  have hh : q * 10 ^ d ≤ ((B * 10 ^ d : ℤ) : ℚ) := by
    push_cast
    exact mul_le_mul_of_nonneg_right h (by positivity)
  have h2 := rhe_le hh
  calc ((rhe (q * 10 ^ d) : ℤ) : ℚ) ≤ ((B * 10 ^ d : ℤ) : ℚ) := by exact_mod_cast h2
    _ = (B : ℚ) * 10 ^ d := by push_cast; ring

theorem emaStrength_nonneg (fast slow atr : ℚ) : 0 ≤ emaStrength fast slow atr := by
  unfold emaStrength
  split_ifs with h
  · exact le_min (by positivity) (by norm_num)
  · exact le_refl 0

theorem emaStrength_le (fast slow atr : ℚ) : emaStrength fast slow atr ≤ 40 := by
  unfold emaStrength
  split_ifs with h
  · exact min_le_right _ _
  · norm_num

theorem rsiStrength_nonneg (sig : Signal) (rsi : ℚ) : 0 ≤ rsiStrength sig rsi := by
  cases sig
  · exact le_max_right _ _
  · exact le_max_right _ _
  · exact le_refl 0

theorem rsiStrength_le (sig : Signal) (rsi : ℚ) : rsiStrength sig rsi ≤ 30 := by
  cases sig
  · exact max_le (min_le_right _ _) (by norm_num)
  · exact max_le (min_le_right _ _) (by norm_num)
  · norm_num [rsiStrength]

theorem stStrength_nonneg (sig : Signal) (d : ℤ) : 0 ≤ stStrength sig d := by
  unfold stStrength
  split_ifs <;> norm_num

theorem stStrength_le (sig : Signal) (d : ℤ) : stStrength sig d ≤ 30 := by
  unfold stStrength
  split_ifs <;> norm_num

theorem stStrength_neutral (d : ℤ) : stStrength Signal.neutral d = 0 := by
  unfold stStrength
  rw [if_neg]
  rintro (⟨h, _⟩ | ⟨h, _⟩) <;> exact Signal.noConfusion h

/-- C2, amended: the confidence is always within [0, 100]; when the
signal is NEUTRAL the RSI and Supertrend components vanish but the EMA
component is still added, so the confidence equals the rounded EMA
component and is at most 40 (not necessarily 0). -/
theorem confidence_bounds (fast slow rsi atr : ℚ) (d : ℤ) :
    0 ≤ confidenceOf fast slow rsi atr d ∧ confidenceOf fast slow rsi atr d ≤ 100 ∧
    (classifySignal fast slow rsi d = Signal.neutral →
      confidenceOf fast slow rsi atr d = roundTo 1 (emaStrength fast slow atr) ∧
      confidenceOf fast slow rsi atr d ≤ 40) := by
  refine ⟨?_, ?_, ?_⟩
  · exact roundTo_nonneg (add_nonneg
      (add_nonneg (emaStrength_nonneg fast slow atr) (rsiStrength_nonneg _ rsi))
      (stStrength_nonneg _ d))
  · have hsum : emaStrength fast slow atr
        + rsiStrength (classifySignal fast slow rsi d) rsi
        + stStrength (classifySignal fast slow rsi d) d ≤ ((100 : ℤ) : ℚ) := by
      have h1 := emaStrength_le fast slow atr
      have h2 := rsiStrength_le (classifySignal fast slow rsi d) rsi
      have h3 := stStrength_le (classifySignal fast slow rsi d) d
      push_cast
      linarith
    simpa using roundTo_le hsum
  · intro hn
    unfold confidenceOf
    rw [hn]
    constructor
    · rw [show rsiStrength Signal.neutral rsi = 0 from rfl, stStrength_neutral]
      norm_num
    · have hsum : emaStrength fast slow atr + rsiStrength Signal.neutral rsi
          + stStrength Signal.neutral d ≤ ((40 : ℤ) : ℚ) := by
        have h1 := emaStrength_le fast slow atr
        rw [show rsiStrength Signal.neutral rsi = 0 from rfl, stStrength_neutral]
        push_cast
        linarith
      simpa using roundTo_le hsum

/-- C2 witness at a concrete input. -/
theorem confidence_bounds_witness :
    0 ≤ confidenceOf 100 60 50 1 1 ∧ confidenceOf 100 60 50 1 1 ≤ 100 ∧
    (classifySignal 100 60 50 1 = Signal.neutral →
      confidenceOf 100 60 50 1 1 = roundTo 1 (emaStrength 100 60 1) ∧
      confidenceOf 100 60 50 1 1 ≤ 40) :=
  confidence_bounds 100 60 50 1 1

/-- C6: the classified signal is BUY iff EMA-fast > EMA-slow, RSI > 53
and Supertrend direction is 1; SELL iff EMA-fast < EMA-slow, RSI < 47
and direction is -1; NEUTRAL in every other case; and the record's
signal field is exactly this classification of the last indicator
values. -/
theorem signal_classification :
    (∀ fast slow rsi : ℚ, ∀ d : ℤ,
      (classifySignal fast slow rsi d = Signal.buy ↔ slow < fast ∧ 53 < rsi ∧ d = 1) ∧
      (classifySignal fast slow rsi d = Signal.sell ↔ fast < slow ∧ rsi < 47 ∧ d = -1) ∧
      (classifySignal fast slow rsi d = Signal.neutral ↔
        ¬(slow < fast ∧ 53 < rsi ∧ d = 1) ∧ ¬(fast < slow ∧ rsi < 47 ∧ d = -1))) ∧
    ∀ bars : List Bar, (predictCore bars).signal =
      classifySignal (emaFastLast bars) (emaSlowLast bars) (rsiLast bars) (stDirLast bars) := by
  constructor
  · intro fast slow rsi d
    by_cases h1 : slow < fast ∧ 53 < rsi ∧ d = 1
    · have hs : ¬(fast < slow ∧ rsi < 47 ∧ d = -1) := by
        rintro ⟨h2, _, _⟩
        exact absurd h1.1 (lt_asymm h2)
      unfold classifySignal
      rw [if_pos h1]
      simp [h1, hs]
    · by_cases h2 : fast < slow ∧ rsi < 47 ∧ d = -1
      · unfold classifySignal
        rw [if_neg h1, if_pos h2]
        simp [h1, h2]
      · unfold classifySignal
        rw [if_neg h1, if_neg h2]
        simp [h1, h2]
  · intro bars
    rfl

/-- C6 witness at a concrete input. -/
theorem signal_classification_witness :
    ((classifySignal 100 60 54 1 = Signal.buy ↔ (60 : ℚ) < 100 ∧ (53 : ℚ) < 54 ∧ (1 : ℤ) = 1) ∧
     (classifySignal 100 60 54 1 = Signal.sell ↔ (100 : ℚ) < 60 ∧ (54 : ℚ) < 47 ∧ (1 : ℤ) = -1) ∧
     (classifySignal 100 60 54 1 = Signal.neutral ↔
       ¬((60 : ℚ) < 100 ∧ (53 : ℚ) < 54 ∧ (1 : ℤ) = 1) ∧
       ¬((100 : ℚ) < 60 ∧ (54 : ℚ) < 47 ∧ (1 : ℤ) = -1))) ∧
    (predictCore bars3).signal =
      classifySignal (emaFastLast bars3) (emaSlowLast bars3) (rsiLast bars3) (stDirLast bars3) :=
  ⟨signal_classification.1 100 60 54 1, signal_classification.2 bars3⟩

/-- C5, amended: `clean_val` maps every NaN or infinite float to the
missing marker and passes every other value (including the marker)
through unchanged; it is, however, not invoked on the prediction path,
so this contract does not extend to the prediction record. -/
theorem clean_val_contract :
    ∀ v : PyVal, (isNonFinite v = true → clean_val v = PyVal.pnone) ∧
      (isNonFinite v = false → clean_val v = v) := by
  intro v
  cases v with
  | pnone => simp [isNonFinite, clean_val]
  | pfloat f => cases f <;> simp [isNonFinite, clean_val]
  | pint n => simp [isNonFinite, clean_val]

/-- C5 witness at concrete values. -/
theorem clean_val_contract_witness :
    clean_val (PyVal.pfloat FloatV.nan) = PyVal.pnone ∧
    clean_val (PyVal.pint 3) = PyVal.pint 3 :=
  ⟨(clean_val_contract (PyVal.pfloat FloatV.nan)).1 rfl,
   (clean_val_contract (PyVal.pint 3)).2 rfl⟩

/-- C7, amended: with fewer than 30 bars the prediction endpoint returns
the insufficient-data dict (signal category CLOSED, no price key, no
exception), and with fewer than 5 bars the chart endpoint returns its
error-only dict; neither record surfaces a price. -/
theorem insufficient_data_handling (bars : List Bar) :
    (bars.length < 30 → predictF bars = PredictResponse.insufficientData ∧
      respSignalCat (predictF bars) = RespCat.closed ∧
      respPrice (predictF bars) = none) ∧
    (bars.length < 5 → chartF bars = ChartResponse.noData) := by
  constructor
  · intro h
    have hp : predictF bars = PredictResponse.insufficientData := by
      unfold predictF
      rw [if_pos h]
    exact ⟨hp, by rw [hp]; rfl, by rw [hp]; rfl⟩
  · intro h
    unfold chartF
    rw [if_pos h]

/-- C7 witness: the 3-bar table triggers both insufficient-data paths. -/
theorem insufficient_data_handling_witness :
    bars3.length < 30 ∧ predictF bars3 = PredictResponse.insufficientData ∧
    respSignalCat (predictF bars3) = RespCat.closed ∧
    respPrice (predictF bars3) = none ∧
    bars3.length < 5 ∧ chartF bars3 = ChartResponse.noData := by
  have h := insufficient_data_handling bars3
  have h30 : bars3.length < 30 := by simp [bars3]
  have h5 : bars3.length < 5 := by simp [bars3]
  exact ⟨h30, (h.1 h30).1, (h.1 h30).2.1, (h.1 h30).2.2, h5, h.2 h5⟩

/-- C9: the pipeline is a pure function of the bar table alone: two runs
on equal tables produce identical records. -/
theorem pipeline_deterministic (b1 b2 : List Bar) (h : b1 = b2) :
    predictCore b1 = predictCore b2 :=
  congrArg predictCore h

/-- C9 witness. -/
theorem pipeline_deterministic_witness :
    bars2 = bars2 ∧ predictCore bars2 = predictCore bars2 :=
  ⟨rfl, pipeline_deterministic bars2 bars2 rfl⟩

/-- C10: when the last 14-period ATR value is undefined, the evaluation
silently substitutes the constant 1.0, and the record's ATR field,
confidence scaling and target/stop distances are all computed from that
fallback; the record is still a full signal record, not a missing-data
marker. -/
theorem atr_fallback (bars : List Bar) (h : (atrSeries bars).getLast? = some none) :
    atrLast bars = 1 ∧
    (predictCore bars).atrV = 1 ∧
    (predictCore bars).confidenceV =
      confidenceOf (emaFastLast bars) (emaSlowLast bars) (rsiLast bars) 1 (stDirLast bars) ∧
    (predictCore bars).targetV =
      roundTo 2 (targetOf (predictCore bars).signal (lastClose bars) 1) ∧
    (predictCore bars).stopLossV =
      roundTo 2 (stopOf (predictCore bars).signal (lastClose bars) 1) := by
  have ha : atrLast bars = 1 := by
    unfold atrLast
    rw [h]
    rfl
  refine ⟨ha, ?_, ?_, ?_, ?_⟩
  · show roundTo 2 (atrLast bars) = 1
    rw [ha]
    norm_num [roundTo, rhe]
  · show confidenceOf (emaFastLast bars) (emaSlowLast bars) (rsiLast bars)
      (atrLast bars) (stDirLast bars) = _
    rw [ha]
  · show roundTo 2 (targetOf (sigOf bars) (lastClose bars) (atrLast bars)) = _
    rw [ha]
    rfl
  · show roundTo 2 (stopOf (sigOf bars) (lastClose bars) (atrLast bars)) = _
    rw [ha]
    rfl

/-- C10 witness: a 2-bar table has an undefined last ATR. -/
theorem atr_fallback_witness :
    (atrSeries bars2).getLast? = some none ∧
    (atrLast bars2 = 1 ∧
     (predictCore bars2).atrV = 1 ∧
     (predictCore bars2).confidenceV =
       confidenceOf (emaFastLast bars2) (emaSlowLast bars2) (rsiLast bars2) 1 (stDirLast bars2) ∧
     (predictCore bars2).targetV =
       roundTo 2 (targetOf (predictCore bars2).signal (lastClose bars2) 1) ∧
     (predictCore bars2).stopLossV =
       roundTo 2 (stopOf (predictCore bars2).signal (lastClose bars2) 1)) := by
  have hA : (atrSeries bars2).getLast? = some none := by
    simp [atrSeries, bars2, rollingMean, trueRange, trAux, List.range_succ]
  exact ⟨hA, atr_fallback bars2 hA⟩

theorem st_getD (bars : List Bar) (period : ℕ) (mult : ℚ) (j : ℕ) (h : j < bars.length) :
    (calculate_supertrend bars period mult).1.getD j none = (stFrom bars period mult j).1 := by
  show ((List.range bars.length).map fun i => (stFrom bars period mult i).1).getD j none = _
  rw [getD_map_range _ _ _ _ h]

theorem dir_getD (bars : List Bar) (period : ℕ) (mult : ℚ) (j : ℕ) (h : j < bars.length) :
    (calculate_supertrend bars period mult).2.1.getD j 0 = (stFrom bars period mult j).2 := by
  show ((List.range bars.length).map fun i => (stFrom bars period mult i).2).getD j 0 = _
  rw [getD_map_range _ _ _ _ h]

/-- C3: the Supertrend series of `calculate_supertrend` have the length
of the bar table, are seeded with `trend[0] = lowerBand[0]` and
`direction[0] = 1`, and at every later bar satisfy exactly the
crossing / persist-with-ratchet / NaN-fill recurrence over the previous
bar's bands. -/
theorem supertrend_recurrence (bars : List Bar) (period : ℕ) (mult : ℚ) (j : ℕ)
    (h : j + 1 < bars.length) :
    (calculate_supertrend bars period mult).1.length = bars.length ∧
    (calculate_supertrend bars period mult).2.1.length = bars.length ∧
    (calculate_supertrend bars period mult).1.getD 0 none = lbAt bars period mult 0 ∧
    (calculate_supertrend bars period mult).2.1.getD 0 0 = 1 ∧
    StRec bars period mult j := by
  have hj : j < bars.length := Nat.lt_of_succ_lt h
  have h0 : 0 < bars.length := Nat.lt_of_le_of_lt (Nat.zero_le _) h
  refine ⟨?_, ?_, ?_, ?_, ?_⟩
  · show ((List.range bars.length).map fun i => (stFrom bars period mult i).1).length = _
    simp
  · show ((List.range bars.length).map fun i => (stFrom bars period mult i).2).length = _
    simp
  · rw [st_getD bars period mult 0 h0]
    rfl
  · rw [dir_getD bars period mult 0 h0]
    rfl
  · unfold StRec
    rw [st_getD bars period mult (j + 1) h, st_getD bars period mult j hj,
      dir_getD bars period mult (j + 1) h, dir_getD bars period mult j hj,
      stFrom_succ]
    exact ⟨rfl, rfl⟩

/-- C3 witness at the concrete table `cbars` and bar 11. -/
theorem supertrend_recurrence_witness :
    10 + 1 < cbars.length ∧
    ((calculate_supertrend cbars 10 3).1.length = cbars.length ∧
     (calculate_supertrend cbars 10 3).2.1.length = cbars.length ∧
     (calculate_supertrend cbars 10 3).1.getD 0 none = lbAt cbars 10 3 0 ∧
     (calculate_supertrend cbars 10 3).2.1.getD 0 0 = 1 ∧
     StRec cbars 10 3 10) := by
  have h : 10 + 1 < cbars.length := by simp [cbars]
  exact ⟨h, supertrend_recurrence cbars 10 3 10 h⟩

/-- C4, amended: the Supertrend direction changes at a bar only when the
close crosses the opposite band of the previous bar; and on every step
where neither band is crossed (the persist branch) the direction
persists and defined trend values are non-decreasing under direction 1
and non-increasing under direction -1.  (A same-direction band
re-crossing re-anchors the trend to the current band and may move
against the run, as the counterexample shows, so monotonicity over whole
maximal runs does not hold.) -/
theorem supertrend_dir_monotone_amended (bars : List Bar) (period : ℕ) (mult : ℚ) (j : ℕ)
    (h : j + 1 < bars.length) :
    DirChangeOnlyOnCross bars period mult j ∧ PersistMonotone bars period mult j := by
  have hj : j < bars.length := Nat.lt_of_succ_lt h
  constructor
  · unfold DirChangeOnlyOnCross
    rw [dir_getD bars period mult (j + 1) h, dir_getD bars period mult j hj, stFrom_succ]
    intro hne
    by_cases hgt : oltB (ubAt bars period mult j) (some (closeAt bars (j + 1))) = true
    · left
      exact ⟨by simp [stStep, hgt], hgt⟩
    · by_cases hlt : oltB (some (closeAt bars (j + 1))) (lbAt bars period mult j) = true
      · right
        exact ⟨by simp [stStep, hgt, hlt], hlt⟩
      · exfalso
        apply hne
        simp [stStep, hgt, hlt]
  · unfold PersistMonotone
    rw [dir_getD bars period mult (j + 1) h, dir_getD bars period mult j hj,
      st_getD bars period mult (j + 1) h, st_getD bars period mult j hj, stFrom_succ]
    intro hgt hlt
    refine ⟨by simp [stStep, hgt, hlt], ?_, ?_⟩
    · intro hd a b hsa hsb
      rw [hsa, hd] at hsb
      simp [stStep, hgt, hlt] at hsb
      by_cases hr : oltB (some a) (lbAt bars period mult (j + 1)) = true
      · rcases oltB_eq_true_iff.mp hr with ⟨a0, x, ha0, hx, hax⟩
        have ha : a = a0 := Option.some.inj ha0
        rw [hx] at hsb
        have hr2 : oltB (some a) (some x) = true := by
          simp only [oltB, decide_eq_true_eq]
          rw [ha]
          exact hax
        simp [hr2, fillNa] at hsb
        rw [ha]
        exact hsb ▸ le_of_lt hax
      · simp [hr, fillNa] at hsb
        exact le_of_eq hsb
    · intro hd a b hsa hsb
      rw [hsa, hd] at hsb
      simp [stStep, hgt, hlt] at hsb
      by_cases hr : oltB (ubAt bars period mult (j + 1)) (some a) = true
      · rcases oltB_eq_true_iff.mp hr with ⟨x, a0, hx, ha0, hax⟩
        have ha : a = a0 := Option.some.inj ha0
        rw [hx] at hsb
        have hr2 : oltB (some x) (some a) = true := by
          simp only [oltB, decide_eq_true_eq]
          rw [ha]
          exact hax
        simp [hr2, fillNa] at hsb
        rw [ha]
        exact hsb ▸ le_of_lt hax
      · simp [hr, fillNa] at hsb
        exact le_of_eq hsb.symm

/-- C4 witness at the concrete table `cbars` and bar 11. -/
theorem supertrend_dir_monotone_witness :
    10 + 1 < cbars.length ∧
    DirChangeOnlyOnCross cbars 10 3 10 ∧ PersistMonotone cbars 10 3 10 := by
  have h : 10 + 1 < cbars.length := by simp [cbars]
  exact ⟨h, (supertrend_dir_monotone_amended cbars 10 3 10 h).1,
    (supertrend_dir_monotone_amended cbars 10 3 10 h).2⟩

theorem emaGo_length (a : ℚ) : ∀ (p : ℚ) (xs : List ℚ), (emaGo a p xs).length = xs.length := by
  intro p xs
  induction xs generalizing p with
  | nil => rfl
  | cons x xs ih => simp [emaGo, ih]

theorem ema_cons_getD (xs : List ℚ) : ∀ (a p : ℚ) (i : ℕ), i + 1 < (p :: xs).length →
    (p :: emaGo a p xs).getD (i + 1) 0 =
      a * (p :: xs).getD (i + 1) 0 + (1 - a) * (p :: emaGo a p xs).getD i 0 := by
  induction xs with
  | nil =>
      intro a p i h
      simp at h
  | cons x xs ih =>
      intro a p i h
      cases i with
      | zero =>
          simp [emaGo, List.getD_cons_succ, List.getD_cons_zero]
      | succ k =>
          have hk : k + 1 < ((a * x + (1 - a) * p) :: xs).length := by
            simp only [List.length_cons] at h ⊢
            omega
          have hmain := ih a (a * x + (1 - a) * p) k hk
          rw [show emaGo a p (x :: xs) =
            (a * x + (1 - a) * p) :: emaGo a (a * x + (1 - a) * p) xs from rfl]
          rw [List.getD_cons_succ, List.getD_cons_succ, List.getD_cons_succ]
          rw [List.getD_cons_succ] at hmain
          exact hmain

/-- C8: the EMA of an empty series is empty; on a non-empty series the
output has the input's length, starts at the first price, and satisfies
the non-adjusted recursion `ema[i+1] = a*price[i+1] + (1-a)*ema[i]` with
`a = 2/(span+1)` from index 0 on. -/
theorem ema_spec (span : ℕ) (p : ℚ) (ps : List ℚ) (i : ℕ)
    (_hs : 0 < span) (hi : i + 1 < (p :: ps).length) :
    calculate_ema [] span = [] ∧
    (calculate_ema (p :: ps) span).length = (p :: ps).length ∧
    (calculate_ema (p :: ps) span).getD 0 0 = p ∧
    (calculate_ema (p :: ps) span).getD (i + 1) 0 =
      (2 / ((span : ℚ) + 1)) * (p :: ps).getD (i + 1) 0 +
        (1 - 2 / ((span : ℚ) + 1)) * (calculate_ema (p :: ps) span).getD i 0 := by
  refine ⟨rfl, ?_, rfl, ?_⟩
  · show (p :: emaGo (2 / ((span : ℚ) + 1)) p ps).length = _
    simp [emaGo_length]
  · exact ema_cons_getD ps (2 / ((span : ℚ) + 1)) p i hi

/-- C8 witness on the series [1, 3] with span 9. -/
theorem ema_spec_witness :
    (0 < 9 ∧ 0 + 1 < ([1, 3] : List ℚ).length) ∧
    (calculate_ema [] 9 = [] ∧
     (calculate_ema [1, 3] 9).length = ([1, 3] : List ℚ).length ∧
     (calculate_ema [1, 3] 9).getD 0 0 = 1 ∧
     (calculate_ema [1, 3] 9).getD (0 + 1) 0 =
       (2 / (((9 : ℕ) : ℚ) + 1)) * ([1, 3] : List ℚ).getD (0 + 1) 0 +
         (1 - 2 / (((9 : ℕ) : ℚ) + 1)) * (calculate_ema [1, 3] 9).getD 0 0) := by
  refine ⟨⟨by norm_num, by norm_num⟩, ?_⟩
  exact ema_spec 9 1 [3] 0 (by norm_num) (by norm_num)
